import Mathlib

/-!
Shallow embedding of `example/estimate.py` from the rides-python-sdk example
repository. The script loads a cached OAuth credential from a flat file (or
runs an interactive authorization-code flow), builds an API client, fetches
products and a ride estimate in each direction between two fixed places, and
prints a one-line summary.

Modelling choices:
* File and console I/O, the current time, and the external SDK's behaviour
  (authorization URL, code-to-token exchange, product and estimate responses)
  are an explicit environment `Env`.
* Observable effects are recorded in an event trace (`Event`).
* The parsed YAML storage file is an association list of string keys to
  YAML values (`YDict`); an absent file is `none`.
* Coordinates are integers in microdegrees: the source's decimal-degree
  literals scaled by 10^6, exactly.
* Uncaught Python exceptions (TypeError, AttributeError, IndexError) are the
  `Outcome.error` results.
-/

set_option autoImplicit false

namespace RidesEstimate

/-- A parsed YAML scalar or list value as it appears in the storage file. -/
inductive YVal where
  | str (s : String)
  | int (n : Int)
  | list (l : List String)
deriving DecidableEq, Repr

/-- A parsed YAML mapping: association list of keys to values. -/
abbrev YDict := List (String × YVal)

/-- A parsed YAML document: `null` (e.g. an empty file) or a mapping. -/
inductive YamlDoc where
  | null
  | dict (d : YDict)
deriving DecidableEq, Repr

/-- First value bound to key `k` in the mapping, as Python dict lookup. -/
def lookupKey (d : YDict) (k : String) : Option YVal :=
  match d with
  | [] => none
  | (k1, v) :: rest => if k1 = k then some v else lookupKey rest k

/-- The external SDK's OAuth2Credential record, with the eight fields the
script persists (lines 101-110 of `estimate.py`). -/
structure OAuth2Credential where
  client_id : String
  redirect_url : String
  access_token : String
  expires_in_seconds : Int
  scopes : List String
  grant_type : String
  client_secret : String
  refresh_token : String
deriving DecidableEq, Repr

/-- The SDK session wrapping a credential. -/
structure Session where
  oauth2credential : OAuth2Credential
deriving DecidableEq, Repr

/-- The SDK ride client: a session plus the sandbox flag the script passes. -/
structure UberRidesClient where
  session : Session
  sandbox_mode : Bool
deriving DecidableEq, Repr

/-- App credentials as returned by `import_app_credentials` (config file). -/
structure AppCredentials where
  client_id : String
  scopes : List String
  client_secret : String
  redirect_url : String
deriving DecidableEq, Repr

/-- The two SDK exception classes caught at lines 92-97. -/
inductive AuthError where
  | clientError (msg : String)
  | uberIllegalState (msg : String)
deriving DecidableEq, Repr

/-- Uncaught Python runtime errors the script can raise. -/
inductive PyError where
  | typeError
  | attributeError
  | indexError
deriving DecidableEq, Repr

/-- A product entry from the products response; only `product_id` is used. -/
structure Product where
  product_id : String
deriving DecidableEq, Repr

/-- The argument record of `estimate_ride` (lines 166-173). -/
structure EstimateQuery where
  product_id : String
  start_latitude : Int
  start_longitude : Int
  end_latitude : Int
  end_longitude : Int
  seat_count : Nat
deriving DecidableEq, Repr

/-- A ride-estimate response; only `json['fare']['display']` is consumed. -/
structure EstimateResponse where
  fareDisplay : String
deriving DecidableEq, Repr

/-- Result of the SDK's authorization-code-to-token exchange
(`auth_flow.get_session(result)`): a session, or one of the two caught
exception classes. -/
inductive ExchangeOutcome where
  | ok (s : Session)
  | err (e : AuthError)
deriving DecidableEq, Repr

/-- Observable effects of a run, in order. -/
inductive Event where
  | readStorage
  | importAppCredentials
  | showAuthUrl (msg : String)
  | promptInput (prompt : String)
  | failPrint (e : AuthError)
  | wroteFile (name : String) (d : YDict)
  | calledGetProducts (lat lng : Int)
  | calledEstimateRide (q : EstimateQuery)
  | printedSummary (line : String)
  | printedDetail (s : String)
deriving DecidableEq, Repr

/-- The environment: time, console input, configuration, and the external
SDK's responses, all outside the script's control. -/
structure Env where
  now : Int
  timeStr : String
  appCredentials : AppCredentials
  authUrl : AppCredentials → String
  userInput : String
  exchange : String → ExchangeOutcome
  products : Int → Int → List Product
  fareDisplay : EstimateQuery → String

/-- The credential storage filename, the constant `STORAGE_FILENAME` of
`example.utils` (its value is named in the module docstring). -/
def STORAGE_FILENAME : String := "oauth2_session_store.yaml"

/-- The console prompt of line 89. -/
def inputPrompt : String := "Copy the URL you are redirected to and paste here: \n"

/-- The login message of lines 85-86. -/
def loginMessage (url : String) : String :=
  "Login and grant access by going to:\n" ++ url ++ "\n"

/-- The mapping written to the storage file (lines 101-110), in source
order. -/
def credentialData (c : OAuth2Credential) : YDict :=
  [("client_id", YVal.str c.client_id),
   ("redirect_url", YVal.str c.redirect_url),
   ("access_token", YVal.str c.access_token),
   ("expires_in_seconds", YVal.int c.expires_in_seconds),
   ("scopes", YVal.list c.scopes),
   ("grant_type", YVal.str c.grant_type),
   ("client_secret", YVal.str c.client_secret),
   ("refresh_token", YVal.str c.refresh_token)]

/-- Models the external constructor call `OAuth2Credential(**storage)`
(line 138): keyword construction succeeds exactly when the mapping binds
exactly the eight expected field names to values of the persisted shapes;
a wrong or missing field name raises TypeError, modelled as `none`. -/
def parseCredential (d : YDict) : Option OAuth2Credential :=
  if d.length = 8 then
    match lookupKey d "client_id", lookupKey d "redirect_url",
          lookupKey d "access_token", lookupKey d "expires_in_seconds",
          lookupKey d "scopes", lookupKey d "grant_type",
          lookupKey d "client_secret", lookupKey d "refresh_token" with
    | some (YVal.str a), some (YVal.str b), some (YVal.str c),
      some (YVal.int e), some (YVal.list s), some (YVal.str g),
      some (YVal.str cs), some (YVal.str r) =>
        some ⟨a, b, c, e, s, g, cs, r⟩
    | _, _, _, _, _, _, _, _ => none
  else none

/-- Result of `authorization_code_grant_flow`: the returned value (a client,
or `none` after a caught error), the emitted events, and the file write it
performed, if any. -/
structure FlowRet where
  client : Option UberRidesClient
  events : List Event
  write : Option (String × YDict)
deriving DecidableEq, Repr

/-- Lines 63-115: show the authorization URL, prompt for the redirect URL,
exchange the pasted result for a session; on `ClientError` or
`UberIllegalState` print the error and return nothing, otherwise persist the
credential mapping and return a sandboxed client. -/
def authorization_code_grant_flow (env : Env) (credentials : AppCredentials)
    (storage_filename : String) : FlowRet :=
  let auth_url := env.authUrl credentials
  let preEvents := [Event.showAuthUrl (loginMessage auth_url),
                    Event.promptInput inputPrompt]
  let result := env.userInput.trim
  match env.exchange result with
  | ExchangeOutcome.err e => ⟨none, preEvents ++ [Event.failPrint e], none⟩
  | ExchangeOutcome.ok session =>
      let cd := credentialData session.oauth2credential
      ⟨some ⟨session, true⟩,
       preEvents ++ [Event.wroteFile storage_filename cd],
       some (storage_filename, cd)⟩

/-- A place: latitude and longitude in microdegrees. -/
structure Place where
  lat : Int
  long : Int
deriving DecidableEq, Repr

/-- The static place table of lines 118-121 (decimal degrees times 10^6). -/
def places : String → Option Place
  | "home" => some ⟨34051876, -118461077⟩
  | "work" => some ⟨33992140, -118473471⟩
  | _ => none

/-- Evaluation of the guard on line 137:
`storage and 'expires_in_seconds' in storage and int(time.time()) < storage['expires_in_seconds']`.
Returns the stored mapping when the guard is true, `none` when it is false,
and a TypeError when the stored expiry value cannot be compared to an
integer. -/
def reuseStorage (now : Int) (storage : Option YamlDoc) :
    Except PyError (Option YDict) :=
  match storage with
  | some (YamlDoc.dict d) =>
      if d.isEmpty then Except.ok none
      else
        match lookupKey d "expires_in_seconds" with
        | some (YVal.int v) =>
            if now < v then Except.ok (some d) else Except.ok none
        | some _ => Except.error PyError.typeError
        | none => Except.ok none
  | _ => Except.ok none

/-- Lines 129-144 of `get_estimate`: read the storage file if it exists,
reuse the stored credential when the guard of line 137 holds (constructing
the client from `OAuth2Credential(**storage)`), otherwise import the app
credentials and run the interactive flow. Returns the client (possibly
`none`), the events, and the resulting storage-file state. -/
def acquireClient (env : Env) (file : Option YamlDoc) :
    Except PyError (Option UberRidesClient) × List Event × Option YamlDoc :=
  let readEvents : List Event :=
    match file with
    | some _ => [Event.readStorage]
    | none => []
  match reuseStorage env.now file with
  | Except.error e => (Except.error e, readEvents, file)
  | Except.ok (some d) =>
      match parseCredential d with
      | none => (Except.error PyError.typeError, readEvents, file)
      | some cred =>
          (Except.ok (some ⟨⟨cred⟩, true⟩), readEvents, file)
  | Except.ok none =>
      let flow := authorization_code_grant_flow env env.appCredentials
        STORAGE_FILENAME
      let newFile :=
        match flow.write with
        | some (_, dd) => some (YamlDoc.dict dd)
        | none => file
      (Except.ok flow.client,
       readEvents ++ [Event.importAppCredentials] ++ flow.events, newFile)

/-- Lines 163-174: fetch products at the origin, take the first product and
ask for a seat-count-1 estimate from origin to destination. Calling any
method on a `None` client raises AttributeError; indexing an empty products
list raises IndexError. -/
def _get_estimate_response (env : Env) (api_client : Option UberRidesClient)
    (orig dest : Place) :
    Except PyError (List Product × EstimateResponse) × List Event :=
  match api_client with
  | none => (Except.error PyError.attributeError, [])
  | some _ =>
      let prods := env.products orig.lat orig.long
      let ev := [Event.calledGetProducts orig.lat orig.long]
      match prods with
      | [] => (Except.error PyError.indexError, ev)
      | p :: rest =>
          let q : EstimateQuery :=
            ⟨p.product_id, orig.lat, orig.long, dest.lat, dest.long, 1⟩
          (Except.ok (p :: rest, ⟨env.fareDisplay q⟩),
           ev ++ [Event.calledEstimateRide q])

/-- The summary line of lines 150-156. -/
def summaryLine (t place1 place2 price1 price2 : String) : String :=
  t ++ ": " ++ place1 ++ "->" ++ place2 ++ ": " ++ price1 ++ ", " ++
    place2 ++ "->" ++ place1 ++ ": " ++ price2

/-- Lines 177-181: the verbose detail output (pretty prints). -/
def _print_detail (products : List Product) (response : EstimateResponse) :
    List Event :=
  [Event.printedDetail "products[0]",
   Event.printedDetail
     (match products.head? with
      | some p => p.product_id
      | none => ""),
   Event.printedDetail "response",
   Event.printedDetail response.fareDisplay]

/-- Final state of one `get_estimate` call. -/
inductive Outcome where
  | ok
  | exit (msg : String)
  | error (e : PyError)
deriving DecidableEq, Repr

/-- A run: the outcome, the ordered events, and the final storage file. -/
structure RunResult where
  outcome : Outcome
  events : List Event
  file : Option YamlDoc
deriving DecidableEq, Repr

/-- Lines 123-160: `get_estimate`. Unknown place names exit immediately;
otherwise acquire a client (cached or interactive), fetch an estimate in
each direction, print the summary line, and optionally print details. -/
def get_estimate (env : Env) (file : Option YamlDoc)
    (name_orig name_dest : String) (detail : Bool) : RunResult :=
  match places name_orig, places name_dest with
  | some orig, some dest =>
      match acquireClient env file with
      | (Except.error e, evs, f1) => ⟨Outcome.error e, evs, f1⟩
      | (Except.ok api_client, evs, f1) =>
          match _get_estimate_response env api_client orig dest with
          | (Except.error e, ev1) => ⟨Outcome.error e, evs ++ ev1, f1⟩
          | (Except.ok (products1, response1), ev1) =>
              match _get_estimate_response env api_client dest orig with
              | (Except.error e, ev2) =>
                  ⟨Outcome.error e, evs ++ ev1 ++ ev2, f1⟩
              | (Except.ok (products2, response2), ev2) =>
                  let line := summaryLine env.timeStr name_orig name_dest
                    response1.fareDisplay response2.fareDisplay
                  let detailEvents :=
                    if detail then
                      _print_detail products1 response1 ++
                        _print_detail products2 response2
                    else []
                  ⟨Outcome.ok,
                   evs ++ ev1 ++ ev2 ++ [Event.printedSummary line] ++
                     detailEvents, f1⟩
  | _, _ => ⟨Outcome.exit "one or both unknown place names", [], file⟩

/-- Whether an event belongs to the interactive authorization flow's
user-facing steps (authorization URL display or console input). -/
def Event.isInteractive : Event → Bool
  | Event.showAuthUrl _ => true
  | Event.promptInput _ => true
  | _ => false

/-- Whether an event is the printed summary line. -/
def Event.isSummary : Event → Bool
  | Event.printedSummary _ => true
  | _ => false

/-- Whether an event writes the storage file. -/
def Event.isWrite : Event → Bool
  | Event.wroteFile _ _ => true
  | _ => false

/-! ### Concrete fixtures used to exercise the model -/

/-- A concrete credential used in tests. -/
def sampleCred : OAuth2Credential :=
  ⟨"cid", "http://localhost/redirect", "atok", 2000000000,
   ["profile", "history"], "authorization_code", "csecret", "rtok"⟩

/-- A concrete environment: time 1500000000, successful exchange, one
product in each direction. -/
def sampleEnv : Env :=
  ⟨1500000000, "01/01/25 12:00:00",
   ⟨"cid", ["profile"], "csecret", "http://localhost/redirect"⟩,
   fun _ => "https://auth.example/authorize",
   " https://localhost/redirect?code=abc ",
   fun _ => ExchangeOutcome.ok ⟨sampleCred⟩,
   fun _ _ => [⟨"prod-1"⟩],
   fun _ => "$10-13"⟩

/-- Like `sampleEnv` but the code-to-token exchange raises `ClientError`. -/
def failEnv : Env :=
  ⟨1500000000, "01/01/25 12:00:00",
   ⟨"cid", ["profile"], "csecret", "http://localhost/redirect"⟩,
   fun _ => "https://auth.example/authorize",
   " https://localhost/redirect?code=abc ",
   fun _ => ExchangeOutcome.err (AuthError.clientError "invalid code"),
   fun _ _ => [⟨"prod-1"⟩],
   fun _ => "$10-13"⟩

/-- Like `sampleEnv` but the products response is an empty list. -/
def noProductsEnv : Env :=
  ⟨1500000000, "01/01/25 12:00:00",
   ⟨"cid", ["profile"], "csecret", "http://localhost/redirect"⟩,
   fun _ => "https://auth.example/authorize",
   " https://localhost/redirect?code=abc ",
   fun _ => ExchangeOutcome.ok ⟨sampleCred⟩,
   fun _ _ => [],
   fun _ => "$10-13"⟩

/-- The stored mapping for `sampleCred`. -/
def sampleDict : YDict := credentialData sampleCred

/-- A storage file holding `sampleCred`, unexpired at `sampleEnv.now`. -/
def sampleFile : Option YamlDoc := some (YamlDoc.dict sampleDict)

/-- A malformed storage mapping: not a valid credential record, and with
an expiry stamp in the past relative to `sampleEnv.now`. -/
def malformedDict : YDict := [("expires_in_seconds", YVal.int 0)]

/-- A malformed storage mapping whose expiry stamp is in the future
relative to `sampleEnv.now`. -/
def malformedFutureDict : YDict := [("expires_in_seconds", YVal.int 2000000000)]

/-- A concrete client, as built from `sampleCred` on the reuse path. -/
def sampleClient : UberRidesClient := ⟨⟨sampleCred⟩, true⟩

/-- The place named "home". -/
def homePlace : Place := ⟨34051876, -118461077⟩

/-- The place named "work". -/
def workPlace : Place := ⟨33992140, -118473471⟩

/-! ### Helper lemmas -/

/-- Closed-form behaviour of the interactive flow, by case on the exchange
outcome. -/
lemma flow_spec (env : Env) (creds : AppCredentials) (fn : String) :
    authorization_code_grant_flow env creds fn =
      match env.exchange env.userInput.trim with
      | ExchangeOutcome.err e =>
          ⟨none,
           [Event.showAuthUrl (loginMessage (env.authUrl creds)),
            Event.promptInput inputPrompt, Event.failPrint e], none⟩
      | ExchangeOutcome.ok s =>
          ⟨some ⟨s, true⟩,
           [Event.showAuthUrl (loginMessage (env.authUrl creds)),
            Event.promptInput inputPrompt,
            Event.wroteFile fn (credentialData s.oauth2credential)],
           some (fn, credentialData s.oauth2credential)⟩ := by
  cases h : env.exchange env.userInput.trim with
  | err e => simp [authorization_code_grant_flow, h]
  | ok s => simp [authorization_code_grant_flow, h]

/-- A successful lookup forces a non-empty mapping. -/
lemma lookupKey_ne_nil {d : YDict} {k : String} {v : YVal}
    (h : lookupKey d k = some v) : d ≠ [] := by
  intro hd
  subst hd
  simp [lookupKey] at h

/-- When the storage file holds a mapping with an unexpired integer
`expires_in_seconds`, the line-137 guard selects the reuse branch. -/
lemma reuseStorage_reuse {now : Int} {d : YDict} {v : Int}
    (hkey : lookupKey d "expires_in_seconds" = some (YVal.int v))
    (hfut : now < v) :
    reuseStorage now (some (YamlDoc.dict d)) = Except.ok (some d) := by
  have hne : d ≠ [] := lookupKey_ne_nil hkey
  have hempty : d.isEmpty = false := by
    cases d with
    | nil => exact absurd rfl hne
    | cons a t => rfl
  simp [reuseStorage, hempty, hkey, hfut]

/-- When the storage file holds a mapping whose integer
`expires_in_seconds` is not in the future, the guard fails. -/
lemma reuseStorage_expired {now : Int} {d : YDict} {v : Int}
    (hkey : lookupKey d "expires_in_seconds" = some (YVal.int v))
    (hpast : v ≤ now) :
    reuseStorage now (some (YamlDoc.dict d)) = Except.ok none := by
  have hne : d ≠ [] := lookupKey_ne_nil hkey
  have hempty : d.isEmpty = false := by
    cases d with
    | nil => exact absurd rfl hne
    | cons a t => rfl
  have : ¬ now < v := not_lt.mpr hpast
  simp [reuseStorage, hempty, hkey, this]

/-- No event of `_get_estimate_response` is interactive. -/
lemma resp_not_interactive (env : Env) (c : Option UberRidesClient)
    (a b : Place) :
    ∀ e ∈ (_get_estimate_response env c a b).2, e.isInteractive = false := by
  unfold _get_estimate_response
  cases c with
  | none => simp
  | some cl =>
      cases env.products a.lat a.long with
      | nil => simp [Event.isInteractive]
      | cons p t => simp [Event.isInteractive]

/-- No event of `_get_estimate_response` is a summary print. -/
lemma resp_not_summary (env : Env) (c : Option UberRidesClient)
    (a b : Place) :
    ∀ e ∈ (_get_estimate_response env c a b).2, e.isSummary = false := by
  unfold _get_estimate_response
  cases c with
  | none => simp
  | some cl =>
      cases env.products a.lat a.long with
      | nil => simp [Event.isSummary]
      | cons p t => simp [Event.isSummary]

/-- No event of `_get_estimate_response` writes the storage file. -/
lemma resp_not_write (env : Env) (c : Option UberRidesClient)
    (a b : Place) :
    ∀ e ∈ (_get_estimate_response env c a b).2, e.isWrite = false := by
  unfold _get_estimate_response
  cases c with
  | none => simp
  | some cl =>
      cases env.products a.lat a.long with
      | nil => simp [Event.isWrite]
      | cons p t => simp [Event.isWrite]

/-- No detail event is interactive, a summary print, or a file write. -/
lemma detail_plain (ps : List Product) (r : EstimateResponse) :
    ∀ e ∈ _print_detail ps r,
      e.isInteractive = false ∧ e.isSummary = false ∧ e.isWrite = false := by
  simp [_print_detail, Event.isInteractive, Event.isSummary, Event.isWrite]

/-- The events of `get_estimate` with two known place names extend the
events of `acquireClient`. -/
lemma get_estimate_events_decomp (env : Env) (file : Option YamlDoc)
    (name_orig name_dest : String) (detail : Bool) (orig dest : Place)
    (ho : places name_orig = some orig) (hd : places name_dest = some dest) :
    ∃ tail, (get_estimate env file name_orig name_dest detail).events =
      (acquireClient env file).2.1 ++ tail := by
  unfold get_estimate
  rw [ho, hd]
  rcases hacq : acquireClient env file with ⟨r, evs, f1⟩
  cases r with
  | error e => exact ⟨[], by simp⟩
  | ok api_client =>
      rcases h1 : _get_estimate_response env api_client orig dest
        with ⟨e1 | ⟨ps1, rs1⟩, ev1⟩
      · exact ⟨ev1, by simp [h1]⟩
      · rcases h2 : _get_estimate_response env api_client dest orig
          with ⟨e2 | ⟨ps2, rs2⟩, ev2⟩
        · exact ⟨ev1 ++ ev2, by simp [h1, h2]⟩
        · refine ⟨ev1 ++ (ev2 ++
            Event.printedSummary (summaryLine env.timeStr name_orig name_dest
              rs1.fareDisplay rs2.fareDisplay) ::
            (if detail = true then
              _print_detail ps1 rs1 ++ _print_detail ps2 rs2 else [])), ?_⟩
          simp [h1, h2]

/-- No event of `_get_estimate_response` is interactive, a summary print,
or a file write. -/
lemma resp_plain (env : Env) (c : Option UberRidesClient) (a b : Place) :
    ∀ e ∈ (_get_estimate_response env c a b).2,
      e.isInteractive = false ∧ e.isSummary = false ∧ e.isWrite = false := by
  unfold _get_estimate_response
  cases c with
  | none => simp
  | some cl =>
      cases env.products a.lat a.long with
      | nil => simp [Event.isInteractive, Event.isSummary, Event.isWrite]
      | cons p t => simp [Event.isInteractive, Event.isSummary, Event.isWrite]

/-- The interactive flow always shows the authorization URL and prompts
for console input. -/
lemma flow_events_head (env : Env) (creds : AppCredentials) (fn : String) :
    Event.showAuthUrl (loginMessage (env.authUrl creds)) ∈
      (authorization_code_grant_flow env creds fn).events ∧
    Event.promptInput inputPrompt ∈
      (authorization_code_grant_flow env creds fn).events := by
  rw [flow_spec]
  cases env.exchange env.userInput.trim <;> simp

/-- The interactive flow never prints the summary line. -/
lemma flow_no_summary (env : Env) (creds : AppCredentials) (fn : String) :
    ∀ e ∈ (authorization_code_grant_flow env creds fn).events,
      e.isSummary = false := by
  rw [flow_spec]
  cases env.exchange env.userInput.trim <;> simp [Event.isSummary]

/-- When the line-137 guard fails, `acquireClient` runs the interactive
flow against the storage filename. -/
lemma acquireClient_flow (env : Env) (file : Option YamlDoc)
    (hst : reuseStorage env.now file = Except.ok none) :
    acquireClient env file =
      (Except.ok (authorization_code_grant_flow env env.appCredentials
          STORAGE_FILENAME).client,
       (match file with
        | some _ => [Event.readStorage]
        | none => []) ++ [Event.importAppCredentials] ++
         (authorization_code_grant_flow env env.appCredentials
           STORAGE_FILENAME).events,
       match (authorization_code_grant_flow env env.appCredentials
           STORAGE_FILENAME).write with
       | some (_, dd) => some (YamlDoc.dict dd)
       | none => file) := by
  cases file <;> simp_all [acquireClient]

/-- The whole-call event trace is empty (unknown place name) or extends
the `acquireClient` events with post-acquisition events, none of which is
interactive or a file write. -/
lemma get_estimate_tail (env : Env) (file : Option YamlDoc)
    (name_orig name_dest : String) (detail : Bool) :
    (get_estimate env file name_orig name_dest detail).events = [] ∨
    ∃ tail,
      (get_estimate env file name_orig name_dest detail).events =
        (acquireClient env file).2.1 ++ tail ∧
      ∀ e ∈ tail, e.isInteractive = false ∧ e.isWrite = false := by
  cases ho : places name_orig with
  | none =>
      left
      unfold get_estimate
      rw [ho]
  | some orig =>
      cases hd : places name_dest with
      | none =>
          left
          unfold get_estimate
          rw [ho, hd]
      | some dest =>
          right
          unfold get_estimate
          rw [ho, hd]
          rcases hacq : acquireClient env file with ⟨r, evs, f1⟩
          cases r with
          | error e => exact ⟨[], by simp [hacq], by simp⟩
          | ok api_client =>
              have hp1 := resp_plain env api_client orig dest
              have hp2 := resp_plain env api_client dest orig
              rcases h1 : _get_estimate_response env api_client orig dest
                with ⟨e1 | ⟨ps1, rs1⟩, ev1⟩
              · rw [h1] at hp1
                refine ⟨ev1, by simp [hacq, h1], ?_⟩
                intro e he
                have := hp1 e he
                exact ⟨this.1, this.2.2⟩
              · rw [h1] at hp1
                rcases h2 : _get_estimate_response env api_client dest orig
                  with ⟨e2 | ⟨ps2, rs2⟩, ev2⟩
                · rw [h2] at hp2
                  refine ⟨ev1 ++ ev2, by simp [hacq, h1, h2], ?_⟩
                  intro e he
                  rcases List.mem_append.mp he with h | h
                  · exact ⟨(hp1 e h).1, (hp1 e h).2.2⟩
                  · exact ⟨(hp2 e h).1, (hp2 e h).2.2⟩
                · rw [h2] at hp2
                  refine ⟨ev1 ++ (ev2 ++
                    Event.printedSummary (summaryLine env.timeStr name_orig
                      name_dest rs1.fareDisplay rs2.fareDisplay) ::
                    (if detail = true then
                      _print_detail ps1 rs1 ++ _print_detail ps2 rs2
                     else [])), by simp [hacq, h1, h2], ?_⟩
                  intro e he
                  rcases List.mem_append.mp he with h | h
                  · exact ⟨(hp1 e h).1, (hp1 e h).2.2⟩
                  · rcases List.mem_append.mp h with h | h
                    · exact ⟨(hp2 e h).1, (hp2 e h).2.2⟩
                    · rcases List.mem_cons.mp h with h | h
                      · subst h
                        exact ⟨rfl, rfl⟩
                      · rcases detail with _ | _
                        · simp at h
                        · rcases List.mem_append.mp (by simpa using h)
                            with h | h
                          · have := detail_plain ps1 rs1 e h
                            exact ⟨this.1, this.2.2⟩
                          · have := detail_plain ps2 rs2 e h
                            exact ⟨this.1, this.2.2⟩

/-- The final storage file of a call is the input file (unknown names) or
the file produced by `acquireClient`. -/
lemma get_estimate_file_eq (env : Env) (file : Option YamlDoc)
    (name_orig name_dest : String) (detail : Bool) :
    (get_estimate env file name_orig name_dest detail).file = file ∨
    (get_estimate env file name_orig name_dest detail).file =
      (acquireClient env file).2.2 := by
  cases ho : places name_orig with
  | none =>
      left
      unfold get_estimate
      rw [ho]
  | some orig =>
      cases hd : places name_dest with
      | none =>
          left
          unfold get_estimate
          rw [ho, hd]
      | some dest =>
          right
          unfold get_estimate
          rw [ho, hd]
          rcases hacq : acquireClient env file with ⟨r, evs, f1⟩
          cases r with
          | error e => simp [hacq]
          | ok api_client =>
              rcases h1 : _get_estimate_response env api_client orig dest
                with ⟨e1 | ⟨ps1, rs1⟩, ev1⟩
              · simp [hacq, h1]
              · rcases h2 : _get_estimate_response env api_client dest orig
                  with ⟨e2 | ⟨ps2, rs2⟩, ev2⟩
                · simp [hacq, h1, h2]
                · simp [hacq, h1, h2]

/-! ### Claims -/

/-- Claim C1: if the credential storage file exists, parses to a non-empty
mapping containing an integer `expires_in_seconds` strictly above the
current time, then no interactive step occurs anywhere in the call (no
authorization URL is shown and no console input is requested), and the API
client is constructed from the stored credential
(`OAuth2Credential(**storage)` wrapped in a sandboxed session client). -/
theorem C1_cached_credential_reused (env : Env) (file : Option YamlDoc)
    (name_orig name_dest : String) (detail : Bool) (d : YDict) (v : Int)
    (hfile : file = some (YamlDoc.dict d)) (_hne : d ≠ [])
    (hkey : lookupKey d "expires_in_seconds" = some (YVal.int v))
    (hfut : env.now < v) :
    (∀ e ∈ (get_estimate env file name_orig name_dest detail).events,
        e.isInteractive = false)
    ∧ ∀ cred, parseCredential d = some cred →
        (acquireClient env file).1 = Except.ok (some ⟨⟨cred⟩, true⟩) := by
  subst hfile
  have hst := reuseStorage_reuse hkey hfut
  have hacqEvents :
      ∀ e ∈ (acquireClient env (some (YamlDoc.dict d))).2.1,
        e.isInteractive = false := by
    cases hp : parseCredential d <;>
      simp [acquireClient, hst, hp, Event.isInteractive]
  constructor
  · intro e he
    rcases get_estimate_tail env (some (YamlDoc.dict d)) name_orig name_dest
        detail with hnil | ⟨tail, heq, htail⟩
    · rw [hnil] at he
      simp at he
    · rw [heq] at he
      rcases List.mem_append.mp he with h | h
      · exact hacqEvents e h
      · exact (htail e h).1
  · intro cred hp
    simp [acquireClient, hst, hp]

/-- Witness for C1 at `sampleEnv` with the stored credential `sampleCred`
(expiry 2000000000, current time 1500000000). -/
theorem C1_cached_credential_reused_witness :
    (sampleFile = some (YamlDoc.dict sampleDict) ∧ sampleDict ≠ [] ∧
      lookupKey sampleDict "expires_in_seconds" =
        some (YVal.int 2000000000) ∧
      sampleEnv.now < 2000000000) ∧
    ((∀ e ∈ (get_estimate sampleEnv sampleFile "home" "work" false).events,
        e.isInteractive = false)
      ∧ ∀ cred, parseCredential sampleDict = some cred →
          (acquireClient sampleEnv sampleFile).1 =
            Except.ok (some ⟨⟨cred⟩, true⟩)) :=
  ⟨⟨rfl, by decide, by decide, by decide⟩,
   C1_cached_credential_reused sampleEnv sampleFile "home" "work" false
     sampleDict 2000000000 rfl (by decide) (by decide) (by decide)⟩

/-- Claim C2: with known place names, if the storage file does not exist,
or its stored integer `expires_in_seconds` is not in the future, then the
interactive flow is triggered: app credentials are imported, the
authorization URL is shown, console input is requested, and the whole
event trace embeds the events of `authorization_code_grant_flow` run
against the storage filename. -/
theorem C2_missing_or_expired_triggers_flow (env : Env)
    (file : Option YamlDoc) (name_orig name_dest : String) (detail : Bool)
    (orig dest : Place)
    (ho : places name_orig = some orig) (hd : places name_dest = some dest)
    (h : file = none ∨ ∃ d v, file = some (YamlDoc.dict d) ∧
        lookupKey d "expires_in_seconds" = some (YVal.int v) ∧ v ≤ env.now) :
    Event.importAppCredentials ∈
      (get_estimate env file name_orig name_dest detail).events
    ∧ Event.showAuthUrl (loginMessage (env.authUrl env.appCredentials)) ∈
        (get_estimate env file name_orig name_dest detail).events
    ∧ Event.promptInput inputPrompt ∈
        (get_estimate env file name_orig name_dest detail).events
    ∧ ∃ pre tail,
        (get_estimate env file name_orig name_dest detail).events =
          pre ++ [Event.importAppCredentials] ++
            (authorization_code_grant_flow env env.appCredentials
              STORAGE_FILENAME).events ++ tail := by
  have hst : reuseStorage env.now file = Except.ok none := by
    rcases h with rfl | ⟨d, v, rfl, hkey, hpast⟩
    · rfl
    · exact reuseStorage_expired hkey hpast
  have hacq := acquireClient_flow env file hst
  obtain ⟨tail0, htail⟩ := get_estimate_events_decomp env file name_orig
    name_dest detail orig dest ho hd
  rw [hacq] at htail
  have hmem := flow_events_head env env.appCredentials STORAGE_FILENAME
  refine ⟨?_, ?_, ?_, ⟨_, tail0, htail⟩⟩
  · rw [htail]
    simp
  · rw [htail]
    simp only [List.mem_append]
    exact Or.inl (Or.inr hmem.1)
  · rw [htail]
    simp only [List.mem_append]
    exact Or.inl (Or.inr hmem.2)

/-- Witness for C2 at `sampleEnv` with no storage file. -/
theorem C2_missing_or_expired_triggers_flow_witness :
    (places "home" = some ⟨34051876, -118461077⟩ ∧
      places "work" = some ⟨33992140, -118473471⟩) ∧
    (Event.importAppCredentials ∈
      (get_estimate sampleEnv none "home" "work" false).events
    ∧ Event.showAuthUrl
        (loginMessage (sampleEnv.authUrl sampleEnv.appCredentials)) ∈
        (get_estimate sampleEnv none "home" "work" false).events
    ∧ Event.promptInput inputPrompt ∈
        (get_estimate sampleEnv none "home" "work" false).events
    ∧ ∃ pre tail,
        (get_estimate sampleEnv none "home" "work" false).events =
          pre ++ [Event.importAppCredentials] ++
            (authorization_code_grant_flow sampleEnv
              sampleEnv.appCredentials STORAGE_FILENAME).events ++ tail) :=
  ⟨⟨by decide, by decide⟩,
   C2_missing_or_expired_triggers_flow sampleEnv none "home" "work" false
     ⟨34051876, -118461077⟩ ⟨33992140, -118473471⟩ (by decide) (by decide)
     (Or.inl rfl)⟩

/-- Claim C3: for every call to `get_estimate` where `name_orig` or
`name_dest` is not a key of the places mapping, the program terminates
immediately with the message "one or both unknown place names", with an
empty event trace (so before reading the storage file, before any
authorization step, and before any client call) and the storage file
unchanged. -/
theorem C3_unknown_place_exits (env : Env) (file : Option YamlDoc)
    (name_orig name_dest : String) (detail : Bool)
    (h : places name_orig = none ∨ places name_dest = none) :
    get_estimate env file name_orig name_dest detail =
      ⟨Outcome.exit "one or both unknown place names", [], file⟩ := by
  unfold get_estimate
  rcases h with h | h
  · rw [h]
  · rw [h]
    cases places name_orig <;> rfl

/-- Witness for C3 at the unknown origin name "casa". -/
theorem C3_unknown_place_exits_witness :
    places "casa" = none ∧
      get_estimate sampleEnv sampleFile "casa" "work" false =
        ⟨Outcome.exit "one or both unknown place names", [], sampleFile⟩ :=
  ⟨by decide,
   C3_unknown_place_exits sampleEnv sampleFile "casa" "work" false
     (Or.inl (by decide))⟩

/-- Claim C4: in every run of `authorization_code_grant_flow`, either the
code-to-token exchange raises `ClientError` or `UberIllegalState`, and then
the error is printed, the function returns nothing and no storage file is
written; or the exchange succeeds, and then the credential mapping is
written to the given storage filename and a client holding the session is
returned. -/
theorem C4_flow_error_caught_or_success_writes (env : Env)
    (credentials : AppCredentials) (storage_filename : String) :
    (∃ e, env.exchange env.userInput.trim = ExchangeOutcome.err e ∧
       (authorization_code_grant_flow env credentials storage_filename).client
         = none ∧
       (authorization_code_grant_flow env credentials storage_filename).write
         = none ∧
       Event.failPrint e ∈
         (authorization_code_grant_flow env credentials storage_filename).events)
    ∨ (∃ s, env.exchange env.userInput.trim = ExchangeOutcome.ok s ∧
       (authorization_code_grant_flow env credentials storage_filename).write
         = some (storage_filename, credentialData s.oauth2credential) ∧
       (authorization_code_grant_flow env credentials storage_filename).client
         = some ⟨s, true⟩) := by
  cases h : env.exchange env.userInput.trim with
  | err e =>
      refine Or.inl ⟨e, rfl, ?_⟩
      rw [flow_spec, h]
      simp
  | ok s =>
      refine Or.inr ⟨s, rfl, ?_⟩
      rw [flow_spec, h]
      simp

/-- Claim C7: the persisted credential mapping consists of exactly the
eight fields, in source order, and round-trips: reading it back through
`OAuth2Credential(**storage)` reconstructs the same credential. -/
theorem C7_credential_roundtrip (c : OAuth2Credential) :
    (credentialData c).map Prod.fst =
      ["client_id", "redirect_url", "access_token", "expires_in_seconds",
       "scopes", "grant_type", "client_secret", "refresh_token"]
    ∧ parseCredential (credentialData c) = some c := by
  exact ⟨rfl, rfl⟩

/-- Claim C5 (implicit): with known place names, when the line-137 guard
fails and the interactive flow's exchange raises a caught error, the flow
returns nothing, yet `get_estimate` proceeds with the null client, so the
call dies with an uncaught AttributeError (no summary is ever printed)
after the authorization failure has been printed. -/
theorem C5_failed_flow_null_client_crash (env : Env) (file : Option YamlDoc)
    (name_orig name_dest : String) (detail : Bool) (orig dest : Place)
    (e : AuthError)
    (ho : places name_orig = some orig) (hd : places name_dest = some dest)
    (hst : reuseStorage env.now file = Except.ok none)
    (hex : env.exchange env.userInput.trim = ExchangeOutcome.err e) :
    (acquireClient env file).1 = Except.ok none
    ∧ (get_estimate env file name_orig name_dest detail).outcome =
        Outcome.error PyError.attributeError
    ∧ Event.failPrint e ∈
        (get_estimate env file name_orig name_dest detail).events
    ∧ ∀ ev ∈ (get_estimate env file name_orig name_dest detail).events,
        ev.isSummary = false := by
  have hflow : authorization_code_grant_flow env env.appCredentials
      STORAGE_FILENAME =
      ⟨none, [Event.showAuthUrl (loginMessage (env.authUrl env.appCredentials)),
        Event.promptInput inputPrompt, Event.failPrint e], none⟩ := by
    rw [flow_spec, hex]
  have hacq : acquireClient env file =
      (Except.ok none,
       (match file with
        | some _ => [Event.readStorage]
        | none => []) ++ [Event.importAppCredentials] ++
         [Event.showAuthUrl (loginMessage (env.authUrl env.appCredentials)),
          Event.promptInput inputPrompt, Event.failPrint e],
       file) := by
    rw [acquireClient_flow env file hst, hflow]
  refine ⟨by rw [hacq], ?_⟩
  unfold get_estimate
  rw [ho, hd, hacq]
  cases file <;> simp [_get_estimate_response, Event.isSummary]

/-- Witness for C5 at `failEnv` with no storage file. -/
theorem C5_failed_flow_null_client_crash_witness :
    (places "home" = some homePlace ∧ places "work" = some workPlace ∧
      reuseStorage failEnv.now none = Except.ok none ∧
      failEnv.exchange failEnv.userInput.trim =
        ExchangeOutcome.err (AuthError.clientError "invalid code")) ∧
    ((acquireClient failEnv none).1 = Except.ok none
    ∧ (get_estimate failEnv none "home" "work" false).outcome =
        Outcome.error PyError.attributeError
    ∧ Event.failPrint (AuthError.clientError "invalid code") ∈
        (get_estimate failEnv none "home" "work" false).events
    ∧ ∀ ev ∈ (get_estimate failEnv none "home" "work" false).events,
        ev.isSummary = false) :=
  ⟨⟨by decide, by decide, rfl, rfl⟩,
   C5_failed_flow_null_client_crash failEnv none "home" "work" false
     homePlace workPlace (AuthError.clientError "invalid code")
     (by decide) (by decide) rfl rfl⟩

/-- Counterexample to claim C6 as stated: the storage file holds a
malformed credential record (a mapping with only an expired
`expires_in_seconds`), yet the call raises no uncaught error — the guard
fails, the interactive flow runs and the call completes normally. -/
theorem C6_counterexample :
    parseCredential malformedDict = none ∧
    (get_estimate sampleEnv (some (YamlDoc.dict malformedDict))
        "home" "work" false).outcome = Outcome.ok := by
  exact ⟨by decide, by decide⟩

/-- Claim C6 (amended): with known place names, a malformed stored
credential that is actually reused — a non-empty stored mapping whose
integer `expires_in_seconds` is in the future but whose contents do not
form a valid credential record — causes an uncaught error (TypeError from
keyword construction) that propagates out of `get_estimate`; it is neither
caught nor silently repaired, and the file is left unchanged. -/
theorem C6_malformed_reused_credential_uncaught (env : Env)
    (file : Option YamlDoc) (name_orig name_dest : String) (detail : Bool)
    (orig dest : Place) (d : YDict) (v : Int)
    (ho : places name_orig = some orig) (hd : places name_dest = some dest)
    (hfile : file = some (YamlDoc.dict d))
    (hkey : lookupKey d "expires_in_seconds" = some (YVal.int v))
    (hfut : env.now < v)
    (hbad : parseCredential d = none) :
    get_estimate env file name_orig name_dest detail =
      ⟨Outcome.error PyError.typeError, [Event.readStorage], file⟩ := by
  subst hfile
  have hst := reuseStorage_reuse hkey hfut
  have hacq : acquireClient env (some (YamlDoc.dict d)) =
      (Except.error PyError.typeError, [Event.readStorage],
       some (YamlDoc.dict d)) := by
    simp [acquireClient, hst, hbad]
  unfold get_estimate
  rw [ho, hd, hacq]

/-- Witness for the amended C6 at a future-dated malformed mapping. -/
theorem C6_malformed_reused_credential_uncaught_witness :
    (places "home" = some homePlace ∧ places "work" = some workPlace ∧
      lookupKey malformedFutureDict "expires_in_seconds" =
        some (YVal.int 2000000000) ∧
      sampleEnv.now < 2000000000 ∧
      parseCredential malformedFutureDict = none) ∧
    get_estimate sampleEnv (some (YamlDoc.dict malformedFutureDict))
        "home" "work" false =
      ⟨Outcome.error PyError.typeError, [Event.readStorage],
       some (YamlDoc.dict malformedFutureDict)⟩ :=
  ⟨⟨by decide, by decide, by decide, by decide, by decide⟩,
   C6_malformed_reused_credential_uncaught sampleEnv
     (some (YamlDoc.dict malformedFutureDict)) "home" "work" false
     homePlace workPlace malformedFutureDict 2000000000
     (by decide) (by decide) rfl (by decide) (by decide) (by decide)⟩

/-- Helper: `acquireClient` never prints the summary line. -/
lemma acquire_no_summary (env : Env) (file : Option YamlDoc) :
    ∀ e ∈ (acquireClient env file).2.1, e.isSummary = false := by
  have hflow := flow_no_summary env env.appCredentials STORAGE_FILENAME
  intro e he
  rcases file with _ | doc
  · simp only [acquireClient, reuseStorage, List.nil_append,
      List.mem_append, List.mem_singleton] at he
    rcases he with he | he
    · subst he
      rfl
    · exact hflow e he
  · cases hst : reuseStorage env.now (some doc) with
    | error er =>
        simp only [acquireClient, hst, List.mem_singleton] at he
        subst he
        rfl
    | ok od =>
        cases od with
        | some d =>
            cases hp : parseCredential d with
            | none =>
                simp only [acquireClient, hst, hp,
                  List.mem_singleton] at he
                subst he
                rfl
            | some cred =>
                simp only [acquireClient, hst, hp,
                  List.mem_singleton] at he
                subst he
                rfl
        | none =>
            simp only [acquireClient, hst, List.mem_append,
              List.mem_singleton] at he
            rcases he with (he | he) | he
            · subst he
              rfl
            · subst he
              rfl
            · exact hflow e he

/-- Helper: a file-write event in the `acquireClient` trace comes from a
successful exchange in the interactive flow, targets the storage filename,
carries that credential's mapping, and is accompanied by the app-credential
import. -/
lemma acquire_write_char (env : Env) (file : Option YamlDoc) (n : String)
    (dd : YDict)
    (h : Event.wroteFile n dd ∈ (acquireClient env file).2.1) :
    n = STORAGE_FILENAME ∧
    Event.importAppCredentials ∈ (acquireClient env file).2.1 ∧
    ∃ s, env.exchange env.userInput.trim = ExchangeOutcome.ok s ∧
      dd = credentialData s.oauth2credential := by
  rcases file with _ | doc
  · have hst : reuseStorage env.now (none : Option YamlDoc) =
        Except.ok none := rfl
    rw [acquireClient_flow env none hst] at h ⊢
    dsimp only at h ⊢
    cases hex : env.exchange env.userInput.trim with
    | err e =>
        rw [flow_spec, hex] at h
        simp_all
    | ok s =>
        rw [flow_spec, hex] at h
        dsimp only at h
        have hnd : n = STORAGE_FILENAME ∧
            dd = credentialData s.oauth2credential := by
          simp_all
        refine ⟨hnd.1, ?_, s, rfl, hnd.2⟩
        rw [flow_spec, hex]
        simp
  · cases hst : reuseStorage env.now (some doc) with
    | error er =>
        simp only [acquireClient, hst, List.mem_singleton] at h
        simp at h
    | ok od =>
        cases od with
        | some d =>
            cases hp : parseCredential d with
            | none =>
                simp only [acquireClient, hst, hp,
                  List.mem_singleton] at h
                simp at h
            | some cred =>
                simp only [acquireClient, hst, hp,
                  List.mem_singleton] at h
                simp at h
        | none =>
            rw [acquireClient_flow env (some doc) hst] at h ⊢
            dsimp only at h ⊢
            cases hex : env.exchange env.userInput.trim with
            | err e =>
                rw [flow_spec, hex] at h
                simp_all
            | ok s =>
                rw [flow_spec, hex] at h
                dsimp only at h
                have hnd : n = STORAGE_FILENAME ∧
                    dd = credentialData s.oauth2credential := by
                  simp_all
                refine ⟨hnd.1, ?_, s, rfl, hnd.2⟩
                rw [flow_spec, hex]
                simp

/-- Claim C8: for every successful run of `get_estimate` (known places,
outcome `ok`), a non-empty products list was fetched in each direction,
the corresponding first-product seat-count-1 estimates were requested, and
exactly one summary line is printed, carrying both directional fare
display strings. -/
theorem C8_one_summary_with_both_fares (env : Env) (file : Option YamlDoc)
    (name_orig name_dest : String) (detail : Bool) (orig dest : Place)
    (ho : places name_orig = some orig) (hd : places name_dest = some dest)
    (hok : (get_estimate env file name_orig name_dest detail).outcome =
      Outcome.ok) :
    ∃ p1 t1 p2 t2,
      env.products orig.lat orig.long = p1 :: t1 ∧
      env.products dest.lat dest.long = p2 :: t2 ∧
      Event.calledGetProducts orig.lat orig.long ∈
        (get_estimate env file name_orig name_dest detail).events ∧
      Event.calledGetProducts dest.lat dest.long ∈
        (get_estimate env file name_orig name_dest detail).events ∧
      Event.calledEstimateRide
          ⟨p1.product_id, orig.lat, orig.long, dest.lat, dest.long, 1⟩ ∈
        (get_estimate env file name_orig name_dest detail).events ∧
      Event.calledEstimateRide
          ⟨p2.product_id, dest.lat, dest.long, orig.lat, orig.long, 1⟩ ∈
        (get_estimate env file name_orig name_dest detail).events ∧
      Event.printedSummary (summaryLine env.timeStr name_orig name_dest
          (env.fareDisplay
            ⟨p1.product_id, orig.lat, orig.long, dest.lat, dest.long, 1⟩)
          (env.fareDisplay
            ⟨p2.product_id, dest.lat, dest.long, orig.lat, orig.long, 1⟩)) ∈
        (get_estimate env file name_orig name_dest detail).events ∧
      List.countP (fun e => e.isSummary)
        (get_estimate env file name_orig name_dest detail).events = 1 := by
  rcases hacq : acquireClient env file with ⟨r, evs0, f1⟩
  cases r with
  | error e =>
      unfold get_estimate at hok
      rw [ho, hd, hacq] at hok
      simp at hok
  | ok api_client =>
      cases api_client with
      | none =>
          unfold get_estimate at hok
          rw [ho, hd, hacq] at hok
          simp [_get_estimate_response] at hok
      | some cl =>
          cases hp1 : env.products orig.lat orig.long with
          | nil =>
              unfold get_estimate at hok
              rw [ho, hd, hacq] at hok
              simp [_get_estimate_response, hp1] at hok
          | cons p1 t1 =>
              cases hp2 : env.products dest.lat dest.long with
              | nil =>
                  unfold get_estimate at hok
                  rw [ho, hd, hacq] at hok
                  simp [_get_estimate_response, hp1, hp2] at hok
              | cons p2 t2 =>
                  have h0 : List.countP (fun e => e.isSummary) evs0 = 0 := by
                    refine List.countP_eq_zero.mpr ?_
                    intro a ha
                    have := acquire_no_summary env file a
                      (by rw [hacq]; exact ha)
                    simp [this]
                  refine ⟨p1, t1, p2, t2, rfl, rfl, ?_, ?_, ?_, ?_, ?_, ?_⟩
                  case refine_1 | refine_2 | refine_3 | refine_4 | refine_5 =>
                    unfold get_estimate
                    rw [ho, hd, hacq]
                    simp [_get_estimate_response, hp1, hp2]
                  case refine_6 =>
                    unfold get_estimate
                    rw [ho, hd, hacq]
                    cases detail <;>
                    · simp [_get_estimate_response, hp1, hp2,
                        List.countP_append, List.countP_cons,
                        _print_detail, Event.isSummary, h0]
                      intro a ha
                      have := acquire_no_summary env file a
                        (by rw [hacq]; exact ha)
                      simpa [Event.isSummary] using this

/-- Witness for C8 at `sampleEnv` with the cached credential file. -/
theorem C8_one_summary_with_both_fares_witness :
    (places "home" = some homePlace ∧ places "work" = some workPlace ∧
      (get_estimate sampleEnv sampleFile "home" "work" false).outcome =
        Outcome.ok) ∧
    (∃ p1 t1 p2 t2,
      sampleEnv.products homePlace.lat homePlace.long = p1 :: t1 ∧
      sampleEnv.products workPlace.lat workPlace.long = p2 :: t2 ∧
      Event.calledGetProducts homePlace.lat homePlace.long ∈
        (get_estimate sampleEnv sampleFile "home" "work" false).events ∧
      Event.calledGetProducts workPlace.lat workPlace.long ∈
        (get_estimate sampleEnv sampleFile "home" "work" false).events ∧
      Event.calledEstimateRide
          ⟨p1.product_id, homePlace.lat, homePlace.long, workPlace.lat,
            workPlace.long, 1⟩ ∈
        (get_estimate sampleEnv sampleFile "home" "work" false).events ∧
      Event.calledEstimateRide
          ⟨p2.product_id, workPlace.lat, workPlace.long, homePlace.lat,
            homePlace.long, 1⟩ ∈
        (get_estimate sampleEnv sampleFile "home" "work" false).events ∧
      Event.printedSummary (summaryLine sampleEnv.timeStr "home" "work"
          (sampleEnv.fareDisplay
            ⟨p1.product_id, homePlace.lat, homePlace.long, workPlace.lat,
              workPlace.long, 1⟩)
          (sampleEnv.fareDisplay
            ⟨p2.product_id, workPlace.lat, workPlace.long, homePlace.lat,
              homePlace.long, 1⟩)) ∈
        (get_estimate sampleEnv sampleFile "home" "work" false).events ∧
      List.countP (fun e => e.isSummary)
        (get_estimate sampleEnv sampleFile "home" "work" false).events = 1) :=
  ⟨⟨by decide, by decide, by decide⟩,
   C8_one_summary_with_both_fares sampleEnv sampleFile "home" "work" false
     homePlace workPlace (by decide) (by decide) (by decide)⟩

/-- Claim C9: the storage file is written only by a successful interactive
flow — every write event targets the storage filename, carries the freshly
exchanged credential's mapping and follows an app-credential import — and
on the cached-reuse path (non-empty stored mapping with unexpired integer
`expires_in_seconds`) the call performs no write event and leaves the file
contents unchanged. -/
theorem C9_write_only_on_interactive_flow (env : Env)
    (file : Option YamlDoc) (name_orig name_dest : String) (detail : Bool) :
    (∀ n dd, Event.wroteFile n dd ∈
        (get_estimate env file name_orig name_dest detail).events →
      n = STORAGE_FILENAME ∧
      Event.importAppCredentials ∈
        (get_estimate env file name_orig name_dest detail).events ∧
      ∃ s, env.exchange env.userInput.trim = ExchangeOutcome.ok s ∧
        dd = credentialData s.oauth2credential)
    ∧ ∀ d v, file = some (YamlDoc.dict d) →
        lookupKey d "expires_in_seconds" = some (YVal.int v) →
        env.now < v →
        (get_estimate env file name_orig name_dest detail).file = file ∧
        ∀ e ∈ (get_estimate env file name_orig name_dest detail).events,
          e.isWrite = false := by
  constructor
  · intro n dd hmem
    rcases get_estimate_tail env file name_orig name_dest detail with
      hnil | ⟨tail, heq, htail⟩
    · rw [hnil] at hmem
      simp at hmem
    · rw [heq] at hmem
      rcases List.mem_append.mp hmem with h | h
      · have hc := acquire_write_char env file n dd h
        exact ⟨hc.1,
          (by rw [heq]; exact List.mem_append.mpr (Or.inl hc.2.1)),
          hc.2.2⟩
      · have := (htail _ h).2
        simp [Event.isWrite] at this
  · intro d v hfile hkey hfut
    subst hfile
    have hst := reuseStorage_reuse hkey hfut
    have hacq22 : (acquireClient env (some (YamlDoc.dict d))).2.2 =
        some (YamlDoc.dict d) := by
      cases hp : parseCredential d <;> simp [acquireClient, hst, hp]
    have hacqev : (acquireClient env (some (YamlDoc.dict d))).2.1 =
        [Event.readStorage] := by
      cases hp : parseCredential d <;> simp [acquireClient, hst, hp]
    constructor
    · rcases get_estimate_file_eq env (some (YamlDoc.dict d)) name_orig
        name_dest detail with h | h
      · exact h
      · rw [h, hacq22]
    · intro e he
      rcases get_estimate_tail env (some (YamlDoc.dict d)) name_orig
          name_dest detail with hnil | ⟨tail, heq, htail⟩
      · rw [hnil] at he
        simp at he
      · rw [heq, hacqev] at he
        rcases List.mem_append.mp he with h | h
        · simp only [List.mem_singleton] at h
          subst h
          rfl
        · exact (htail e h).2

/-- Witness for C9: the write-provenance part at a run that does write the
file (no stored file, successful exchange), and the frame part at a
cached-reuse run. -/
theorem C9_write_only_on_interactive_flow_witness :
    ((Event.wroteFile STORAGE_FILENAME sampleDict ∈
        (get_estimate sampleEnv none "home" "work" false).events) ∧
      (STORAGE_FILENAME = STORAGE_FILENAME ∧
       Event.importAppCredentials ∈
         (get_estimate sampleEnv none "home" "work" false).events ∧
       ∃ s, sampleEnv.exchange sampleEnv.userInput.trim =
           ExchangeOutcome.ok s ∧
         sampleDict = credentialData s.oauth2credential)) ∧
    ((sampleFile = some (YamlDoc.dict sampleDict) ∧
      lookupKey sampleDict "expires_in_seconds" =
        some (YVal.int 2000000000) ∧
      sampleEnv.now < 2000000000) ∧
     ((get_estimate sampleEnv sampleFile "home" "work" false).file =
        sampleFile ∧
      ∀ e ∈ (get_estimate sampleEnv sampleFile "home" "work" false).events,
        e.isWrite = false)) :=
  ⟨⟨by decide,
    (C9_write_only_on_interactive_flow sampleEnv none "home" "work"
      false).1 STORAGE_FILENAME sampleDict (by decide)⟩,
   ⟨⟨rfl, by decide, by decide⟩,
    (C9_write_only_on_interactive_flow sampleEnv sampleFile "home" "work"
      false).2 sampleDict 2000000000 rfl (by decide) (by decide)⟩⟩

/-- Claim C10 (implicit): `_get_estimate_response` always requests the
estimate for the first returned product's id with seat count 1 between the
given coordinates; its precondition is a non-empty products list, and an
empty products response makes the indexing fail with an uncaught
IndexError. -/
theorem C10_first_product_seat_count_one (env : Env)
    (client : UberRidesClient) (orig dest : Place) :
    (env.products orig.lat orig.long = [] →
      (_get_estimate_response env (some client) orig dest).1 =
        Except.error PyError.indexError)
    ∧ ∀ p t, env.products orig.lat orig.long = p :: t →
        _get_estimate_response env (some client) orig dest =
          (Except.ok (p :: t,
             ⟨env.fareDisplay ⟨p.product_id, orig.lat, orig.long,
                dest.lat, dest.long, 1⟩⟩),
           [Event.calledGetProducts orig.lat orig.long,
            Event.calledEstimateRide ⟨p.product_id, orig.lat, orig.long,
              dest.lat, dest.long, 1⟩]) := by
  constructor
  · intro h
    simp [_get_estimate_response, h]
  · intro p t h
    simp [_get_estimate_response, h]

/-- Witness for C10: the empty-products crash at `noProductsEnv` and the
first-product estimate at `sampleEnv`. -/
theorem C10_first_product_seat_count_one_witness :
    (noProductsEnv.products homePlace.lat homePlace.long = [] ∧
      (_get_estimate_response noProductsEnv (some sampleClient) homePlace
          workPlace).1 = Except.error PyError.indexError) ∧
    (sampleEnv.products homePlace.lat homePlace.long =
        Product.mk "prod-1" :: [] ∧
      _get_estimate_response sampleEnv (some sampleClient) homePlace
          workPlace =
        (Except.ok (Product.mk "prod-1" :: [],
           ⟨sampleEnv.fareDisplay ⟨"prod-1", homePlace.lat, homePlace.long,
              workPlace.lat, workPlace.long, 1⟩⟩),
         [Event.calledGetProducts homePlace.lat homePlace.long,
          Event.calledEstimateRide ⟨"prod-1", homePlace.lat, homePlace.long,
            workPlace.lat, workPlace.long, 1⟩])) :=
  ⟨⟨rfl,
    (C10_first_product_seat_count_one noProductsEnv sampleClient homePlace
      workPlace).1 rfl⟩,
   ⟨rfl,
    (C10_first_product_seat_count_one sampleEnv sampleClient homePlace
      workPlace).2 (Product.mk "prod-1") [] rfl⟩⟩

end RidesEstimate
